import Mathlib

/-
Verification of the task-lifecycle and script-execution core of the
`browser-api` repository.  Python strings are modelled as `List Char`,
Python dicts as insertion-ordered association lists, the `while True`
periodic loop by a fuel parameter (`none` = the loop is still running
after `fuel` iterations), and the external browser agent by a boolean
success oracle indexed by run / action position / attempt number.
Wall-clock timestamps, sleeps and opaque result payloads carried along by
the code are irrelevant to the verified properties and are either passed
in explicitly (`now`) or omitted.
-/

namespace BrowserApi

/-- Python strings, as lists of characters. -/
abbrev Str := List Char

/-- Fuelled scanner for Python `s.replace(pat, repl)`: scan left to
right, replace each non-overlapping occurrence of a non-empty `pat`,
continue scanning after the inserted replacement text.  Each step
consumes at least one character of the scanned string, so `s.length`
fuel always suffices; the structural recursion on the fuel keeps the
function kernel-computable. -/
def replaceAllF (pat repl : Str) : Nat → Str → Str
  | _, [] => []
  | 0, s => s
  | fuel + 1, c :: rest =>
    if pat.isPrefixOf (c :: rest) && !pat.isEmpty then
      repl ++ replaceAllF pat repl fuel (List.drop (pat.length - 1) rest)
    else
      c :: replaceAllF pat repl fuel rest

/-- Python `s.replace(pat, repl)` for a non-empty pattern.  (Used at
`scriptexecutor.py` line 49 and `agenthandler.py` line 151; both call
sites always pass a non-empty pattern.) -/
def replaceAll (pat repl : Str) (s : Str) : Str :=
  replaceAllF pat repl s.length s

/-- Decidable occurrence test: does `pat` occur as a contiguous substring
of `s`?  (Reasoning companion to `replaceAll`.) -/
def hasOcc (pat : Str) : Str → Bool
  | [] => pat.isEmpty
  | c :: rest => pat.isPrefixOf (c :: rest) || hasOcc pat rest

/-- The pattern built by `f"${'{'}{'{'}{'{'}var_name{'}'}{'}'}{'}'}"` in
`ScriptExecutor.script_to_tasks` (line 49): the literal text
`$` `\x7b` name `\x7d`. -/
def varPat (name : Str) : Str := '$' :: '{' :: (name ++ ['}'])

/-- The pattern built by `f"${'{'}var_name{'}'}"` in
`AgentHandler.execute_script` (line 151): the literal text `$` name —
note the braces are consumed by the f-string and are NOT part of the
pattern. -/
def agentVarPat (name : Str) : Str := '$' :: name

/-- The substitution pass of `ScriptExecutor.script_to_tasks`
(lines 48-49): for each binding in dict insertion order, replace every
occurrence of the `varPat` pattern by the bound value. -/
def substValue (vars : List (Str × Str)) (v : Str) : Str :=
  vars.foldl (fun acc nv => replaceAll (varPat nv.1) nv.2 acc) v

/-- The substitution pass of `AgentHandler.execute_script`
(lines 150-151), which uses the brace-less `agentVarPat` pattern. -/
def agentSubstValue (vars : List (Str × Str)) (v : Str) : Str :=
  vars.foldl (fun acc nv => replaceAll (agentVarPat nv.1) nv.2 acc) v

/-! ## Script data model (`models/browser.py`) -/

/-- `ActionType` enum (`models/browser.py` lines 5-12). -/
inductive ActionType where
  | click
  | type
  | navigate
  | wait
  | scroll
  | screenshot
  | extract
deriving DecidableEq

/-- `BrowserAction` (`models/browser.py` lines 14-23).  `coordinates` is a
dict read via `.get('x')` / `.get('y')`; it is modelled as the pair of
those two entries. -/
structure BrowserAction where
  action_type : ActionType
  selector : Option Str := none
  value : Option Str := none
  url : Option Str := none
  coordinates : Option (Int × Int) := none
  wait_time : Option Int := none
deriving DecidableEq

/-- Python `f"{x}"` on an `Optional[str]`: `None` prints as `None`. -/
def pyOptStr : Option Str → Str
  | none => ("None".toList)
  | some s => s

/-- Python `f"{x}"` on an `Optional[int]`. -/
def pyOptInt : Option Int → Str
  | none => ("None".toList)
  | some i => (toString i).toList

/-- `ScriptExecutor._action_to_task` (`scriptexecutor.py` lines 16-35).
The trailing `raise ValueError` branch is unreachable because the
`ActionType` enum is closed. -/
def _action_to_task (action : BrowserAction) : Str :=
  match action.action_type with
  | .navigate => ("Navigate to ".toList) ++ pyOptStr action.url
  | .click => ("Click on element matching selector: ".toList) ++ pyOptStr action.selector
  | .type =>
      ("Type '".toList) ++ pyOptStr action.value
        ++ ("' into element matching selector: ".toList) ++ pyOptStr action.selector
  | .wait => ("Wait for ".toList) ++ pyOptInt action.wait_time ++ (" milliseconds".toList)
  | .scroll =>
      match action.coordinates with
      | some xy =>
          ("Scroll to coordinates x:".toList) ++ (toString xy.1).toList
            ++ (", y:".toList) ++ (toString xy.2).toList
      | none => ("Scroll to bottom of page".toList)
  | .screenshot => ("Take screenshot of element matching selector: ".toList) ++ pyOptStr action.selector
  | .extract => ("Extract text from element matching selector: ".toList) ++ pyOptStr action.selector

/-- A step's validation descriptor: the `Dict[str, Any]` read through
`.get("type")`, `.get("selector")`, `.get("timeout", 5000)` and
`.get("expected_value")` in `script_to_tasks` (lines 55-58). -/
structure ValidationDesc where
  type : Option Str := none
  selector : Option Str := none
  timeout : Option Int := none
  expected_value : Option Str := none
deriving DecidableEq

/-- The validation tasks appended after an action (`scriptexecutor.py`
lines 54-66).  An unrecognised `type` appends nothing (the `if`/`elif`
chain has no final `else`); a missing descriptor appends nothing. -/
def validationTasks (validation : Option ValidationDesc) : List Str :=
  match validation with
  | none => []
  | some v =>
    let timeout := v.timeout.getD 5000
    if v.type = some ("element_exists".toList) then
      [("Wait for element matching selector: ".toList) ++ pyOptStr v.selector
        ++ (" (timeout: ".toList) ++ (toString timeout).toList ++ ("ms)".toList)]
    else if v.type = some ("text_contains".toList) then
      [("Verify text in ".toList) ++ pyOptStr v.selector
        ++ (" contains '".toList) ++ pyOptStr v.expected_value
        ++ ("' (timeout: ".toList) ++ (toString timeout).toList ++ ("ms)".toList)]
    else if v.type = some ("url_changed".toList) then
      [("Wait for URL to change (timeout: ".toList) ++ (toString timeout).toList ++ ("ms)".toList)]
    else []

/-- `ScriptStep` (`models/browser.py` lines 31-35). -/
structure ScriptStep where
  step_id : Str
  description : Str
  actions : List BrowserAction
  validation : Option ValidationDesc := none
deriving DecidableEq

/-- `AutomationScript` (`models/browser.py` lines 37-41). -/
structure AutomationScript where
  name : Str
  description : Str
  steps : List ScriptStep
  -- the source names this field `variables`; that word is reserved in Lean 4
  vars : Option (List (Str × Str)) := none
deriving DecidableEq

/-- The in-place update `action.value = action.value.replace(...)` of
`script_to_tasks` (lines 47-49).  Python's truthiness test
`if action.value` skips both `None` and the empty string. -/
def substAction (vars : List (Str × Str)) (action : BrowserAction) : BrowserAction :=
  match action.value with
  | some v => if v = [] then action else { action with value := some (substValue vars v) }
  | none => action

/-- Body of `ScriptExecutor.script_to_tasks` (lines 37-68), abstracted
over the variable mapping (the caller reads `script.vars or {}`).
The accumulating `foldl`s mirror the Python `tasks.append` loop: for each
step, for each action, append the translated action and then the step's
validation tasks. -/
def scriptTasksWith (vars : List (Str × Str)) (steps : List ScriptStep) : List Str :=
  steps.foldl (fun tasks step =>
    step.actions.foldl (fun tasks action =>
      (tasks ++ [_action_to_task (substAction vars action)]) ++ validationTasks step.validation)
      tasks)
    []

/-- `ScriptExecutor.script_to_tasks` (lines 37-68). -/
def script_to_tasks (script : AutomationScript) : List Str :=
  scriptTasksWith (script.vars.getD []) script.steps

/-! ## Script executor (`handlers/scriptexecutor.py`)

The external agent is modelled by a success oracle `ok : Nat → Nat → Bool`
for a single run (`ok i a` = does the dispatch of the action at position
`i`, attempt number `a` (0-based), return normally?) and by
`Nat → Nat → Nat → Bool` (run index first) across periodic runs.
`agent.execute_task`'s opaque result payload, the recorded timestamps and
the error strings are not inspected by any claim and are omitted from the
recorded entries. -/

/-- One entry of `run_results` (`scriptexecutor.py` lines 116-122 and
128-134): the dispatched task text, the `success` flag, and the recorded
`attempt` count (1-based). -/
structure TaskResult where
  task : Str
  success : Bool
  attempt : Nat
deriving DecidableEq

/-- The first attempt index (0-based) in `range maxRetries` at which the
agent call succeeds, if any — the attempt at which the Python
`for attempt in range(max_retries)` loop `break`s. -/
def firstOk (ok1 : Nat → Bool) (maxRetries : Nat) : Option Nat :=
  (List.range maxRetries).find? ok1

/-- The dispatches `(position, attempt)` issued while running the action
at position `i` for `k` attempts. -/
def attemptsOf (i : Nat) (k : Nat) : List (Nat × Nat) :=
  (List.range k).map (fun a => (i, a))

/-- The value of one `run_once` call (`scriptexecutor.py` lines 107-151):
the run's `success` flag, its `run_results`, and (instrumentation) the
list of every dispatch `(position, attempt)` made to the agent. -/
structure RunOut where
  success : Bool
  results : List TaskResult
  dispatches : List (Nat × Nat)
deriving DecidableEq

/-- The `for task in tasks` loop of `run_once` (lines 112-144), with the
position counter `i`, the running `run_success` flag, and the accumulated
results and dispatch trace.  Per task: `range max_retries` attempts; on
the first success, record `{success: True, attempt: a+1}` and move on; if
every attempt raises, record `{success: False, attempt: max_retries}`,
clear `run_success`, and — when `stop_on_error` — return immediately with
`success: False`.  When `max_retries = 0` the attempt loop body never
runs, so the task is silently skipped. -/
def runOnceAux (ok : Nat → Nat → Bool) (maxRetries : Nat) (stopOnError : Bool) :
    Nat → List Str → Bool → List TaskResult → List (Nat × Nat) → RunOut
  | _, [], runSuccess, acc, tr => ⟨runSuccess, acc, tr⟩
  | i, t :: rest, runSuccess, acc, tr =>
    if maxRetries = 0 then
      runOnceAux ok maxRetries stopOnError (i + 1) rest runSuccess acc tr
    else
      match firstOk (ok i) maxRetries with
      | some a =>
          runOnceAux ok maxRetries stopOnError (i + 1) rest runSuccess
            (acc ++ [⟨t, true, a + 1⟩]) (tr ++ attemptsOf i (a + 1))
      | none =>
          if stopOnError then
            ⟨false, acc ++ [⟨t, false, maxRetries⟩], tr ++ attemptsOf i maxRetries⟩
          else
            runOnceAux ok maxRetries stopOnError (i + 1) rest false
              (acc ++ [⟨t, false, maxRetries⟩]) (tr ++ attemptsOf i maxRetries)

/-- `run_once` (`scriptexecutor.py` lines 107-151). -/
def runOnce (ok : Nat → Nat → Bool) (tasks : List Str) (maxRetries : Nat)
    (stopOnError : Bool) : RunOut :=
  runOnceAux ok maxRetries stopOnError 0 tasks true [] []

/-- The aggregate `execution_results` dict built by `execute_script`
(lines 96-105 and 153-186): run history, the three counters, and the
final `status`.  `script_name`, `is_periodic`, `period` and the
timestamps are never read by any claim and are omitted. -/
structure ExecSummary where
  runs : List RunOut
  total_runs : Nat
  successful_runs : Nat
  failed_runs : Nat
  status : Str
deriving DecidableEq

/-- The accumulator state of the `while True` loop. -/
structure ExecAcc where
  runs : List RunOut
  total_runs : Nat
  successful_runs : Nat
  failed_runs : Nat
deriving DecidableEq

/-- The `while True` periodic loop (`scriptexecutor.py` lines 155-167),
bounded by `fuel` iterations: after each run it bumps the counters,
appends the run, and `break`s exactly when the run failed and
`stop_on_error` is set.  `none` means the real loop would still be
running after `fuel` iterations (it has no other exit short of an
external cancellation, which is not modelled). -/
def periodicLoop (ok : Nat → Nat → Nat → Bool) (tasks : List Str) (maxRetries : Nat)
    (stopOnError : Bool) : Nat → Nat → ExecAcc → Option ExecAcc
  | 0, _, _ => none
  | fuel + 1, runIdx, acc =>
    let r := runOnce (ok runIdx) tasks maxRetries stopOnError
    let acc' : ExecAcc :=
      { runs := acc.runs ++ [r]
        total_runs := acc.total_runs + 1
        successful_runs := acc.successful_runs + (if r.success then 1 else 0)
        failed_runs := acc.failed_runs + (if r.success then 0 else 1) }
    if !r.success && stopOnError then some acc'
    else periodicLoop ok tasks maxRetries stopOnError fuel (runIdx + 1) acc'

/-- Body of `ScriptExecutor.execute_script` (lines 70-186), abstracted
over a per-run view `varsAt` of the script's (externally mutable)
variable dict.  Faithful to the source, the task list is translated
ONCE, at line 95, before any run — hence with `varsAt 0`.  On a normal
exit of the `try` block the `else` arm at line 183 sets
`status = "completed"`; `"cancelled"`/`"error"` arise only from
exceptions, which are outside this model. -/
def executeScriptEnv (ok : Nat → Nat → Nat → Bool) (steps : List ScriptStep)
    (varsAt : Nat → List (Str × Str)) (periodic : Bool)
    (maxRetries : Nat) (stopOnError : Bool) (fuel : Nat) : Option ExecSummary :=
  let tasks := scriptTasksWith (varsAt 0) steps
  if periodic then
    (periodicLoop ok tasks maxRetries stopOnError fuel 0 ⟨[], 0, 0, 0⟩).map
      (fun a => ⟨a.runs, a.total_runs, a.successful_runs, a.failed_runs, "completed".toList⟩)
  else
    let r := runOnce (ok 0) tasks maxRetries stopOnError
    some ⟨[r], 1, if r.success then 1 else 0, if r.success then 0 else 1, "completed".toList⟩

/-- `ScriptExecutor.execute_script` (lines 70-186) on a script value,
whose variable dict is fixed for the whole call. -/
def execute_script (ok : Nat → Nat → Nat → Bool) (script : AutomationScript)
    (periodic : Bool) (maxRetries : Nat) (stopOnError : Bool) (fuel : Nat) :
    Option ExecSummary :=
  executeScriptEnv ok script.steps (fun _ => script.vars.getD []) periodic
    maxRetries stopOnError fuel

/-- Modelled from the spec: "Apply variable substitution to `value` just
before dispatch (substitution is re-applied per run, so variables may be
supplied or changed between periodic runs)."  This spec-following variant
re-translates the script before EVERY run with the variables current at
that run; it exists only to be compared with the source behaviour
(`executeScriptEnv`), which translates once. -/
def periodicLoopPerRun (ok : Nat → Nat → Nat → Bool) (steps : List ScriptStep)
    (varsAt : Nat → List (Str × Str)) (maxRetries : Nat)
    (stopOnError : Bool) : Nat → Nat → ExecAcc → Option ExecAcc
  | 0, _, _ => none
  | fuel + 1, runIdx, acc =>
    let r := runOnce (ok runIdx) (scriptTasksWith (varsAt runIdx) steps) maxRetries stopOnError
    let acc' : ExecAcc :=
      { runs := acc.runs ++ [r]
        total_runs := acc.total_runs + 1
        successful_runs := acc.successful_runs + (if r.success then 1 else 0)
        failed_runs := acc.failed_runs + (if r.success then 0 else 1) }
    if !r.success && stopOnError then some acc'
    else periodicLoopPerRun ok steps varsAt maxRetries stopOnError fuel (runIdx + 1) acc'

/-- Modelled from the spec: the executor as the spec's words describe it,
with per-run re-substitution (see `periodicLoopPerRun`). -/
def executeScriptPerRun (ok : Nat → Nat → Nat → Bool) (steps : List ScriptStep)
    (varsAt : Nat → List (Str × Str)) (periodic : Bool)
    (maxRetries : Nat) (stopOnError : Bool) (fuel : Nat) : Option ExecSummary :=
  if periodic then
    (periodicLoopPerRun ok steps varsAt maxRetries stopOnError fuel 0 ⟨[], 0, 0, 0⟩).map
      (fun a => ⟨a.runs, a.total_runs, a.successful_runs, a.failed_runs, "completed".toList⟩)
  else
    let r := runOnce (ok 0) (scriptTasksWith (varsAt 0) steps) maxRetries stopOnError
    some ⟨[r], 1, if r.success then 1 else 0, if r.success then 0 else 1, "completed".toList⟩

/-! ## Task manager (`handlers/taskmanager.py`)

The registry `self.tasks : Dict[str, TaskStatus]` is an insertion-ordered
association list; `time.time()` values are passed in explicitly as `now`;
the opaque `result: Optional[dict]` payload is a type parameter `ρ`. -/

/-- The `TaskStatus` dataclass (`taskmanager.py` lines 11-20). -/
structure Task (ρ : Type) where
  task_id : String
  status : String
  start_time : Nat
  end_time : Option Nat := none
  result : Option ρ := none
  error : Option String := none
  logs : List String := []
deriving DecidableEq

/-- The registry `self.tasks`. -/
abbrev Registry (ρ : Type) := List (String × Task ρ)

/-- Python dict read `m.get(k)`. -/
def dictGet {α : Type} : List (String × α) → String → Option α
  | [], _ => none
  | (k', v) :: rest, k => if k' = k then some v else dictGet rest k

/-- Python dict write `m[k] = v`: replaces the binding in place if the
key is present, otherwise appends it. -/
def dictSet {α : Type} : List (String × α) → String → α → List (String × α)
  | [], k, v => [(k, v)]
  | (k', v') :: rest, k, v =>
    if k' = k then (k, v) :: rest else (k', v') :: dictSet rest k v

/-- In-place mutation of the fields of `m[k]` (no-op if `k` is absent),
as done by `complete_task`/`fail_task`/`cancel_task` after their
membership test. -/
def dictModify {α : Type} : List (String × α) → String → (α → α) → List (String × α)
  | [], _, _ => []
  | (k', v') :: rest, k, f =>
    if k' = k then (k', f v') :: rest else (k', v') :: dictModify rest k f

/-- `TaskManager.register_task` (lines 34-40): unconditional dict
assignment of a fresh `running` record. -/
def register_task {ρ : Type} (now : Nat) (task_id : String) (m : Registry ρ) : Registry ρ :=
  dictSet m task_id
    { task_id := task_id, status := "running", start_time := now,
      end_time := none, result := none, error := none, logs := [] }

/-- `TaskManager.complete_task` (lines 80-84): guarded only by
`task_id in self.tasks`; overwrites status, end_time and result. -/
def complete_task {ρ : Type} (now : Nat) (task_id : String) (result : ρ)
    (m : Registry ρ) : Registry ρ :=
  dictModify m task_id
    (fun t => { t with status := "completed", end_time := some now, result := some result })

/-- `TaskManager.fail_task` (lines 86-90): guarded only by membership;
overwrites status, end_time and error. -/
def fail_task {ρ : Type} (now : Nat) (task_id : String) (error : String)
    (m : Registry ρ) : Registry ρ :=
  dictModify m task_id
    (fun t => { t with status := "failed", end_time := some now, error := some error })

/-- `TaskManager.cancel_task` (lines 92-97): transitions only from
`running`, returns whether it did. -/
def cancel_task {ρ : Type} (now : Nat) (task_id : String) (m : Registry ρ) :
    Bool × Registry ρ :=
  match dictGet m task_id with
  | some t =>
      if t.status = "running" then
        (true,
         dictModify m task_id
           (fun u => { u with status := "cancelled", end_time := some now }))
      else (false, m)
  | none => (false, m)

/-- `TaskManager.get_task_status` (lines 99-100). -/
def get_task_status {ρ : Type} (task_id : String) (m : Registry ρ) : Option (Task ρ) :=
  dictGet m task_id

/-! ## Proof-support definitions -/

/-- The result entries recorded while the actions at positions
`i, i+1, …` of `pre` each eventually succeed within `mr` attempts. -/
def preEntries (ok : Nat → Nat → Bool) (mr : Nat) : Nat → List Str → List TaskResult
  | _, [] => []
  | i, t :: rest =>
    ⟨t, true, (firstOk (ok i) mr).getD 0 + 1⟩ :: preEntries ok mr (i + 1) rest

/-- The dispatches issued while the actions at positions `i, i+1, …` of
`pre` each eventually succeed within `mr` attempts. -/
def preTrace (ok : Nat → Nat → Bool) (mr : Nat) : Nat → List Str → List (Nat × Nat)
  | _, [] => []
  | i, _ :: rest =>
    attemptsOf i ((firstOk (ok i) mr).getD 0 + 1) ++ preTrace ok mr (i + 1) rest

/-! ## Concrete instances used by witnesses and counterexamples -/

/-- The spec's login scenario: navigate, then type `${user}` with the
variable mapping `user ↦ alice`. -/
def loginScriptExample : AutomationScript :=
  { name := "Login".toList
    description := "Fill out and submit a login form".toList
    steps :=
      [ { step_id := "s1".toList
          description := "open the login page".toList
          actions := [{ action_type := .navigate,
                        url := some ("https://example.com/login".toList) }] }
      , { step_id := "s2".toList
          description := "enter the user name".toList
          actions := [{ action_type := .type, selector := some ("#user".toList),
                        value := some ("${user}".toList) }] } ]
    vars := some [("user".toList, "alice".toList)] }

/-- A one-action script used to drive the periodic loop. -/
def monitorScriptExample : AutomationScript :=
  { name := "Monitor".toList
    description := "poll a page".toList
    steps :=
      [ { step_id := "s1".toList
          description := "open the page".toList
          actions := [{ action_type := .navigate,
                        url := some ("https://x.example".toList) }] } ] }

/-- Steps whose single `type` action carries a `${user}` placeholder. -/
def typeUserSteps : List ScriptStep :=
  [ { step_id := "s1".toList
      description := "enter the user name".toList
      actions := [{ action_type := .type, selector := some ("#user".toList),
                    value := some ("${user}".toList) }] } ]

/-- A variable environment that is empty at run 0 and binds
`user ↦ alice` from run 1 on. -/
def varsLater : Nat → List (Str × Str) :=
  fun n => if n = 0 then [] else [("user".toList, "alice".toList)]

/-- Agent oracle across runs: every dispatch of run 0 succeeds, every
later dispatch fails. -/
def okFirstRun : Nat → Nat → Nat → Bool := fun r _ _ => r == 0

/-- The summary the source executor produces on `typeUserSteps` /
`varsLater` / `okFirstRun` (periodic, `max_retries = 1`,
`stop_on_error = true`). -/
def laterRunSummary : ExecSummary :=
  (executeScriptEnv okFirstRun typeUserSteps varsLater true 1 true 3).getD ⟨[], 0, 0, 0, []⟩

/-- A two-instruction task list for exercising `run_once` directly. -/
def tasksTwo : List Str := ["alpha".toList, "beta".toList]

/-- Single-run agent oracle: position 0 succeeds at once, every other
position always fails. -/
def okTwo : Nat → Nat → Bool := fun i _ => i == 0

/-- A step carrying two `click` actions and an `element_exists`
validation descriptor. -/
def twoStep : ScriptStep :=
  { step_id := "s1".toList
    description := "click both buttons".toList
    actions :=
      [ { action_type := .click, selector := some ("#a".toList) }
      , { action_type := .click, selector := some ("#b".toList) } ]
    validation := some { type := some ("element_exists".toList),
                         selector := some ("#x".toList) } }

/-- A script whose single step is `twoStep`. -/
def twoActionScript : AutomationScript :=
  { name := "Clicks".toList
    description := "click twice".toList
    steps := [twoStep] }

/-! ## Dictionary lemmas -/

theorem dictGet_set_self {α : Type} (m : List (String × α)) (k : String) (v : α) :
    dictGet (dictSet m k v) k = some v := by
  induction m with
  | nil => simp [dictGet, dictSet]
  | cons p rest ih =>
    by_cases h : p.1 = k
    · simp [dictGet, dictSet, h]
    · simpa [dictGet, dictSet, h] using ih

theorem dictGet_set_ne {α : Type} (m : List (String × α)) (k k' : String) (v : α)
    (h : k' ≠ k) : dictGet (dictSet m k v) k' = dictGet m k' := by
  have hkk : ¬ k = k' := fun e => h e.symm
  induction m with
  | nil => simp [dictGet, dictSet, hkk]
  | cons p rest ih =>
    by_cases hp : p.1 = k
    · simp [dictGet, dictSet, hp, hkk]
    · simp [dictGet, dictSet, hp, ih]

theorem dictGet_modify_self {α : Type} (m : List (String × α)) (k : String) (f : α → α) :
    dictGet (dictModify m k f) k = (dictGet m k).map f := by
  induction m with
  | nil => simp [dictGet, dictModify]
  | cons p rest ih =>
    by_cases h : p.1 = k
    · simp [dictGet, dictModify, h]
    · simpa [dictGet, dictModify, h] using ih

/-! ## Claim C1 -/

/-- Claim C1, counterexample: a task whose status is already terminal
(`cancelled`) has its status, end time and result overwritten by a later
`complete_task` call, because `complete_task` guards only on membership
(`taskmanager.py` line 81) — so a terminal status is NOT stable. -/
theorem c1_counterexample :
    (get_task_status "task_1"
        ((cancel_task 1 "task_1" (register_task 0 "task_1" ([] : Registry Nat))).2)).map Task.status
      = some "cancelled"
    ∧ (get_task_status "task_1"
        (complete_task 2 "task_1" (7 : Nat)
          ((cancel_task 1 "task_1" (register_task 0 "task_1" ([] : Registry Nat))).2))).map Task.status
      = some "completed"
    ∧ "cancelled" ≠ "completed" := by
  decide

/-- Claim C1 as amended: `status` starts at `running` and `cancel_task`
never overwrites a terminal status, but `complete_task` and `fail_task`
guard only on membership and overwrite the status, `end_time` and
result/error of any registered task — terminal or not. -/
theorem c1_terminal_not_protected {ρ : Type} (now : Nat) (idv : String)
    (m : Registry ρ) (t : Task ρ) (r : ρ) (e : String)
    (hfound : get_task_status idv m = some t) :
    (t.status ≠ "running" → cancel_task now idv m = (false, m))
    ∧ get_task_status idv (complete_task now idv r m)
        = some { t with status := "completed", end_time := some now, result := some r }
    ∧ get_task_status idv (fail_task now idv e m)
        = some { t with status := "failed", end_time := some now, error := some e } := by
  unfold get_task_status at hfound
  refine ⟨?_, ?_, ?_⟩
  · intro hs
    unfold cancel_task
    rw [hfound]
    simp [hs]
  · unfold complete_task get_task_status
    rw [dictGet_modify_self, hfound]
    rfl
  · unfold fail_task get_task_status
    rw [dictGet_modify_self, hfound]
    rfl

/-- Witness for `c1_terminal_not_protected` at a concrete registry whose
single task is already `cancelled`. -/
theorem c1_witness :
    (cancel_task 5 "task_1"
        ((cancel_task 1 "task_1" (register_task 0 "task_1" ([] : Registry Nat))).2)
      = (false, (cancel_task 1 "task_1" (register_task 0 "task_1" ([] : Registry Nat))).2))
    ∧ (get_task_status "task_1"
        (complete_task 5 "task_1" (7 : Nat)
          ((cancel_task 1 "task_1" (register_task 0 "task_1" ([] : Registry Nat))).2))
        = some { task_id := "task_1", status := "completed", start_time := 0,
                 end_time := some 5, result := some 7, error := none, logs := [] })
    ∧ (get_task_status "task_1"
        (fail_task 5 "task_1" "boom"
          ((cancel_task 1 "task_1" (register_task 0 "task_1" ([] : Registry Nat))).2))
        = some { task_id := "task_1", status := "failed", start_time := 0,
                 end_time := some 5, result := none, error := some "boom", logs := [] }) := by
  have h := c1_terminal_not_protected 5 "task_1"
    ((cancel_task 1 "task_1" (register_task 0 "task_1" ([] : Registry Nat))).2)
    { task_id := "task_1", status := "cancelled", start_time := 0,
      end_time := some 1, result := none, error := none, logs := [] }
    (7 : Nat) "boom" (by decide)
  exact ⟨h.1 (by decide), h.2.1, h.2.2⟩

/-! ## Claim C2 -/

/-- Claim C2, counterexample: `cancel_task` can return `true` twice for
the same task id, because `register_task` silently replaces an existing
record and resets its status to `running` — so "returns true at most
once per task id" fails across re-registration. -/
theorem c2_counterexample :
    (cancel_task 1 "task_1" (register_task 0 "task_1" ([] : Registry Nat))).1 = true
    ∧ (cancel_task 3 "task_1"
        (register_task 2 "task_1"
          (cancel_task 1 "task_1" (register_task 0 "task_1" ([] : Registry Nat))).2)).1 = true := by
  decide

/-- Claim C2 as amended: `cancel_task` returns `true` and transitions to
`cancelled` (setting `end_time`) exactly when the task exists with
status `running`; otherwise it returns `false` and leaves the registry
unchanged; an immediately repeated call returns `false`.  (It can return
`true` again for the same id only after `register_task` replaces the
record, as the counterexample shows.) -/
theorem c2_cancel_spec {ρ : Type} (now now2 : Nat) (idv : String) (m : Registry ρ) :
    ((cancel_task now idv m).1 = true
        ↔ ∃ t, get_task_status idv m = some t ∧ t.status = "running")
    ∧ ((cancel_task now idv m).1 = false → (cancel_task now idv m).2 = m)
    ∧ ((cancel_task now idv m).1 = true →
        ∃ t, get_task_status idv m = some t
          ∧ get_task_status idv (cancel_task now idv m).2
              = some { t with status := "cancelled", end_time := some now })
    ∧ ((cancel_task now idv m).1 = true →
        (cancel_task now2 idv (cancel_task now idv m).2).1 = false) := by
  unfold cancel_task get_task_status
  cases hg : dictGet m idv with
  | none => simp
  | some t =>
    by_cases hs : t.status = "running"
    · simp only [if_pos hs]
      refine ⟨⟨fun _ => ⟨t, rfl, hs⟩, fun _ => by trivial⟩, ?_, ?_, ?_⟩
      · intro hf
        simp at hf
      · intro _
        exact ⟨t, rfl, by rw [dictGet_modify_self, hg]; rfl⟩
      · intro _
        rw [dictGet_modify_self, hg]
        simp
    · simp only [if_neg hs]
      refine ⟨⟨?_, ?_⟩, fun _ => by trivial, ?_, ?_⟩
      · intro hf
        simp at hf
      · rintro ⟨t', ht', hrun⟩
        cases ht'
        exact absurd hrun hs
      · intro hf
        simp at hf
      · intro hf
        simp at hf

/-- Witness for `c2_cancel_spec`: a freshly registered task is
cancellable exactly once. -/
theorem c2_witness :
    (cancel_task 1 "task_1" (register_task 0 "task_1" ([] : Registry Nat))).1 = true
    ∧ (cancel_task 2 "task_1"
        (cancel_task 1 "task_1" (register_task 0 "task_1" ([] : Registry Nat))).2).1 = false := by
  have h := c2_cancel_spec 1 2 "task_1" (register_task 0 "task_1" ([] : Registry Nat))
  have h1 : (cancel_task 1 "task_1" (register_task 0 "task_1" ([] : Registry Nat))).1 = true :=
    h.1.mpr ⟨{ task_id := "task_1", status := "running", start_time := 0,
               end_time := none, result := none, error := none, logs := [] },
             by decide, rfl⟩
  exact ⟨h1, h.2.2.2 h1⟩

/-! ## Claim C9 -/

/-- Claim C9, counterexample: re-registering an id that already holds a
terminal record does not fail — `register_task` is an unconditional dict
assignment (`taskmanager.py` lines 35-40), so the old record (here a
`completed` one carrying a result) is silently replaced by a fresh
`running` record. -/
theorem c9_counterexample :
    (get_task_status "task_1"
        (complete_task 1 "task_1" (7 : Nat) (register_task 0 "task_1" ([] : Registry Nat))))
      = some { task_id := "task_1", status := "completed", start_time := 0,
               end_time := some 1, result := some 7, error := none, logs := [] }
    ∧ (get_task_status "task_1"
        (register_task 5 "task_1"
          (complete_task 1 "task_1" (7 : Nat) (register_task 0 "task_1" ([] : Registry Nat)))))
      = some { task_id := "task_1", status := "running", start_time := 5,
               end_time := none, result := none, error := none, logs := [] } := by
  decide

/-- Claim C9 as amended: `register_task(id)` always installs a fresh
record with status `running`, `start_time = now` and empty logs, leaving
every other id untouched — when `id` is already registered it replaces
the existing record instead of failing. -/
theorem c9_register_replaces {ρ : Type} (now : Nat) (idv : String) (m : Registry ρ) :
    get_task_status idv (register_task now idv m)
      = some { task_id := idv, status := "running", start_time := now,
               end_time := none, result := none, error := none, logs := [] }
    ∧ ∀ id2, id2 ≠ idv →
        get_task_status id2 (register_task now idv m) = get_task_status id2 m := by
  constructor
  · unfold get_task_status register_task
    exact dictGet_set_self ..
  · intro id2 hne
    unfold get_task_status register_task
    exact dictGet_set_ne _ _ _ _ hne

/-- Witness for `c9_register_replaces` on a registry that already holds
a completed record under the same id plus an unrelated id. -/
theorem c9_witness :
    get_task_status "task_1"
        (register_task 5 "task_1"
          (register_task 4 "task_2"
            (complete_task 1 "task_1" (7 : Nat) (register_task 0 "task_1" ([] : Registry Nat)))))
      = some { task_id := "task_1", status := "running", start_time := 5,
               end_time := none, result := none, error := none, logs := [] }
    ∧ get_task_status "task_2"
        (register_task 5 "task_1"
          (register_task 4 "task_2"
            (complete_task 1 "task_1" (7 : Nat) (register_task 0 "task_1" ([] : Registry Nat)))))
      = get_task_status "task_2"
          (register_task 4 "task_2"
            (complete_task 1 "task_1" (7 : Nat) (register_task 0 "task_1" ([] : Registry Nat)))) := by
  have h := c9_register_replaces 5 "task_1"
    (register_task 4 "task_2"
      (complete_task 1 "task_1" (7 : Nat) (register_task 0 "task_1" ([] : Registry Nat))))
  exact ⟨h.1, h.2 "task_2" (by decide)⟩

/-! ## Substitution lemmas -/

theorem replaceAllF_no_occ (pat repl : Str) :
    ∀ (fuel : Nat) (s : Str), hasOcc pat s = false → replaceAllF pat repl fuel s = s := by
  intro fuel
  induction fuel with
  | zero =>
    intro s _
    cases s <;> rfl
  | succ fuel ih =>
    intro s h
    cases s with
    | nil => rfl
    | cons c rest =>
      rw [hasOcc, Bool.or_eq_false_iff] at h
      rw [replaceAllF, if_neg (by simp [h.1]), ih rest h.2]

theorem replaceAll_no_occ (pat repl : Str) (s : Str) (h : hasOcc pat s = false) :
    replaceAll pat repl s = s :=
  replaceAllF_no_occ pat repl s.length s h

theorem substValue_no_occ :
    ∀ (vars : List (Str × Str)) (s : Str),
      (∀ p ∈ vars, hasOcc (varPat p.1) s = false) → substValue vars s = s := by
  intro vars
  induction vars with
  | nil =>
    intro s _
    rfl
  | cons p rest ih =>
    intro s h
    show substValue rest (replaceAll (varPat p.1) p.2 s) = s
    rw [replaceAll_no_occ _ _ _ (h p (List.mem_cons_self p rest))]
    exact ih s (fun q hq => h q (List.mem_cons_of_mem p hq))

/-! ## Claim C7 -/

/-- Claim C7: the substitution pass is idempotent whenever it introduces
no new bound placeholder — if no `${name}` pattern of a bound name
occurs in the once-substituted string, a second pass is the identity.
(The proviso is necessary: `substValue` on `${${a}}` with
`a ↦ b, b ↦ c` yields `${b}`, and a second pass would rewrite that to
`c`.) -/
theorem c7_subst_idempotent (vars : List (Str × Str)) (s : Str)
    (h : ∀ p ∈ vars, hasOcc (varPat p.1) (substValue vars s) = false) :
    substValue vars (substValue vars s) = substValue vars s :=
  substValue_no_occ vars (substValue vars s) h

/-- Witness for `c7_subst_idempotent` on the login binding. -/
theorem c7_witness :
    substValue [("user".toList, "alice".toList)]
        (substValue [("user".toList, "alice".toList)] ("${user}".toList))
      = substValue [("user".toList, "alice".toList)] ("${user}".toList) :=
  c7_subst_idempotent [("user".toList, "alice".toList)] ("${user}".toList) (by decide)

/-! ## Claim C6 -/

/-- Claim C6 (code bug): the script-translation pass
(`ScriptExecutor.script_to_tasks`) substitutes `${user} ↦ alice` as the
spec demands — the login scenario's `type` instruction references
`alice` — but the second substitution site, in
`AgentHandler.execute_script`, builds its pattern with
`f"${'{'}var_name{'}'}"`, whose braces are consumed by the f-string; it
therefore searches for `$user` and leaves the placeholder `${user}`
verbatim even though `user` is bound. -/
theorem c6_substitution_patterns :
    script_to_tasks loginScriptExample
      = [("Navigate to https://example.com/login".toList),
         ("Type 'alice' into element matching selector: #user".toList)]
    ∧ substValue [("user".toList, "alice".toList)] ("${user}".toList) = ("alice".toList)
    ∧ agentSubstValue [("user".toList, "alice".toList)] ("${user}".toList)
        = ("${user}".toList) := by
  decide

/-! ## Translator shape lemmas -/

theorem foldl_actions_eq (vars : List (Str × Str)) (vt : List Str) :
    ∀ (acts : List BrowserAction) (acc : List Str),
      acts.foldl
          (fun tasks action =>
            (tasks ++ [_action_to_task (substAction vars action)]) ++ vt) acc
        = acc ++ acts.flatMap (fun action => _action_to_task (substAction vars action) :: vt) := by
  intro acts
  induction acts with
  | nil =>
    intro acc
    simp
  | cons a rest ih =>
    intro acc
    rw [List.foldl_cons, ih]
    simp

theorem foldl_steps_eq (vars : List (Str × Str)) :
    ∀ (steps : List ScriptStep) (acc : List Str),
      steps.foldl
          (fun tasks step =>
            step.actions.foldl
              (fun tasks action =>
                (tasks ++ [_action_to_task (substAction vars action)])
                  ++ validationTasks step.validation)
              tasks) acc
        = acc ++ steps.flatMap (fun st => st.actions.flatMap (fun action =>
            _action_to_task (substAction vars action) :: validationTasks st.validation)) := by
  intro steps
  induction steps with
  | nil =>
    intro acc
    simp
  | cons st rest ih =>
    intro acc
    rw [List.foldl_cons, foldl_actions_eq, ih]
    simp

theorem scriptTasksWith_eq_bind (vars : List (Str × Str)) (steps : List ScriptStep) :
    scriptTasksWith vars steps
      = steps.flatMap (fun st => st.actions.flatMap (fun action =>
          _action_to_task (substAction vars action) :: validationTasks st.validation)) := by
  rw [scriptTasksWith, foldl_steps_eq]
  rfl

theorem bind_cons_length {α : Type} (g : α → Str) (vt : List Str) (h : vt.length = 1) :
    ∀ l : List α, (l.flatMap fun a => g a :: vt).length = 2 * l.length := by
  intro l
  induction l with
  | nil => rfl
  | cons a rest ih =>
    simp only [List.flatMap_cons, List.length_append, List.length_cons, ih, h, List.length_cons]
    omega

/-! ## Claim C10 -/

/-- Claim C10: in the translated task list, a step's validation
instruction is appended after EVERY one of its actions — the list is the
flattening of `translated action :: validation tasks` over all actions of
all steps, and for a step with a recognised validation descriptor and
`n` actions the step contributes `2 * n` instructions (`n` of them
validation copies), not `n + 1`. -/
theorem c10_validation_after_each_action (vars : List (Str × Str)) (step : ScriptStep)
    (v : ValidationDesc) (hv : step.validation = some v)
    (hrec : v.type = some ("element_exists".toList)
        ∨ v.type = some ("text_contains".toList)
        ∨ v.type = some ("url_changed".toList)) :
    (∀ sc : AutomationScript,
        script_to_tasks sc
          = sc.steps.flatMap (fun st => st.actions.flatMap (fun a =>
              _action_to_task (substAction (sc.vars.getD []) a)
                :: validationTasks st.validation)))
    ∧ (scriptTasksWith vars [step]).length = 2 * step.actions.length := by
  constructor
  · intro sc
    exact scriptTasksWith_eq_bind (sc.vars.getD []) sc.steps
  · have hlen : (validationTasks step.validation).length = 1 := by
      rw [hv]
      rcases hrec with h | h | h <;> simp [validationTasks, h]
    rw [scriptTasksWith_eq_bind]
    simp only [List.flatMap_cons, List.flatMap_nil, List.append_nil]
    exact bind_cons_length _ _ hlen step.actions

/-- Witness for `c10_validation_after_each_action` on a concrete
two-action step with an `element_exists` validation. -/
theorem c10_witness :
    (script_to_tasks twoActionScript
      = twoActionScript.steps.flatMap (fun st => st.actions.flatMap (fun a =>
          _action_to_task (substAction (twoActionScript.vars.getD []) a)
            :: validationTasks st.validation)))
    ∧ (scriptTasksWith [] [twoStep]).length = 2 * twoStep.actions.length := by
  have h := c10_validation_after_each_action []
    twoStep { type := some ("element_exists".toList), selector := some ("#x".toList),
              timeout := none, expected_value := none }
    rfl (Or.inl rfl)
  exact ⟨h.1 twoActionScript, h.2⟩

/-! ## Periodic-loop lemmas -/

theorem range_one_eq : List.range 1 = [0] := rfl

theorem range_map_shift {α : Type} (g : Nat → α) (n i : Nat) :
    (List.range (n + 1)).map (fun j => g (i + j))
      = g i :: (List.range n).map (fun j => g (i + 1 + j)) := by
  rw [List.range_succ_eq_map, List.map_cons, List.map_map]
  congr 1
  apply List.map_congr_left
  intro j _
  simp only [Function.comp_apply]
  congr 1
  omega

theorem periodicLoop_first_failure (ok : Nat → Nat → Nat → Bool) (tasks : List Str) (mr : Nat) :
    ∀ (k fuel i : Nat) (acc : ExecAcc),
      (∀ j, j < k → (runOnce (ok (i + j)) tasks mr true).success = true) →
      (runOnce (ok (i + k)) tasks mr true).success = false →
      k < fuel →
      periodicLoop ok tasks mr true fuel i acc
        = some { runs := acc.runs ++ (List.range (k + 1)).map
                   (fun j => runOnce (ok (i + j)) tasks mr true),
                 total_runs := acc.total_runs + (k + 1),
                 successful_runs := acc.successful_runs + k,
                 failed_runs := acc.failed_runs + 1 } := by
  intro k
  induction k with
  | zero =>
    intro fuel i acc _ hfail hfuel
    cases fuel with
    | zero => omega
    | succ f =>
      have h0 : (runOnce (ok i) tasks mr true).success = false := by simpa using hfail
      simp [periodicLoop, h0, range_one_eq]
  | succ k ih =>
    intro fuel i acc hpre hfail hfuel
    cases fuel with
    | zero => omega
    | succ f =>
      have hs0 : (runOnce (ok i) tasks mr true).success = true := by
        simpa using hpre 0 (Nat.succ_pos k)
      have step :
          periodicLoop ok tasks mr true (f + 1) i acc
            = periodicLoop ok tasks mr true f (i + 1)
                { runs := acc.runs ++ [runOnce (ok i) tasks mr true]
                  total_runs := acc.total_runs + 1
                  successful_runs := acc.successful_runs + 1
                  failed_runs := acc.failed_runs } := by
        simp [periodicLoop, hs0]
      rw [step, ih f (i + 1) _ ?hpre ?hfail (by omega)]
      case hpre =>
        intro j hj
        have e : i + 1 + j = i + (j + 1) := by omega
        rw [e]
        exact hpre (j + 1) (by omega)
      case hfail =>
        have e : i + 1 + k = i + (k + 1) := by omega
        rw [e]
        exact hfail
      have hmap := range_map_shift (fun x => runOnce (ok x) tasks mr true) (k + 1) i
      simp only [Option.some.injEq, ExecAcc.mk.injEq]
      refine ⟨?_, by omega, by omega, trivial⟩
      rw [hmap]
      simp

theorem periodicLoop_runs_shape (ok : Nat → Nat → Nat → Bool) (tasks : List Str)
    (mr : Nat) (so : Bool) :
    ∀ (fuel i : Nat) (acc out : ExecAcc),
      periodicLoop ok tasks mr so fuel i acc = some out →
      ∃ m, 0 < m
        ∧ out.runs = acc.runs ++ (List.range m).map (fun j => runOnce (ok (i + j)) tasks mr so) := by
  intro fuel
  induction fuel with
  | zero =>
    intro i acc out h
    simp [periodicLoop] at h
  | succ f ih =>
    intro i acc out h
    simp only [periodicLoop] at h
    by_cases hc : (!(runOnce (ok i) tasks mr so).success && so) = true
    · rw [if_pos hc] at h
      obtain rfl := Option.some.inj h
      refine ⟨1, Nat.one_pos, ?_⟩
      simp [range_one_eq]
    · rw [if_neg hc] at h
      obtain ⟨m, hm, hruns⟩ := ih (i + 1) _ out h
      refine ⟨m + 1, by omega, ?_⟩
      rw [hruns]
      rw [range_map_shift (fun x => runOnce (ok x) tasks mr so) m i]
      simp

/-! ## Claim C3 -/

/-- Claim C3, counterexample: with `periodic=true`, `stop_on_error=true`
and an always-failing agent, the loop does terminate after the failing
run (`total_runs = 1`), but the aggregate's final status is
`"completed"`, not `"error"` — the `break` at line 165 exits the `try`
block normally, so the `else` arm at line 183 runs. -/
theorem c3_counterexample :
    ((execute_script (fun _ _ _ => false) monitorScriptExample true 3 true 2).map
        ExecSummary.status = some ("completed".toList))
    ∧ ((execute_script (fun _ _ _ => false) monitorScriptExample true 3 true 2).map
        ExecSummary.total_runs = some 1)
    ∧ ("completed".toList) ≠ ("error".toList) := by
  decide

/-- Claim C3 as amended: under `periodic=true` and `stop_on_error=true`,
if run `k` is the first failing run then the loop terminates right after
it — the aggregate holds exactly the `k+1` runs, `total_runs = k+1`,
`successful_runs = k`, `failed_runs = 1` — but its final status is
`"completed"` (status `"error"` is reserved for unexpected exceptions). -/
theorem c3_first_failure_completed (ok : Nat → Nat → Nat → Bool) (steps : List ScriptStep)
    (varsAt : Nat → List (Str × Str)) (mr k fuel : Nat)
    (hpre : ∀ j, j < k →
      (runOnce (ok j) (scriptTasksWith (varsAt 0) steps) mr true).success = true)
    (hfail : (runOnce (ok k) (scriptTasksWith (varsAt 0) steps) mr true).success = false)
    (hfuel : k < fuel) :
    executeScriptEnv ok steps varsAt true mr true fuel
      = some { runs := (List.range (k + 1)).map
                 (fun j => runOnce (ok j) (scriptTasksWith (varsAt 0) steps) mr true),
               total_runs := k + 1, successful_runs := k, failed_runs := 1,
               status := "completed".toList } := by
  unfold executeScriptEnv
  rw [if_pos rfl]
  rw [periodicLoop_first_failure ok _ mr k fuel 0 ⟨[], 0, 0, 0⟩
        (by intro j hj; simpa using hpre j hj) (by simpa using hfail) hfuel]
  simp

/-- Witness for `c3_first_failure_completed`: run 0 succeeds, run 1 is
the first failure, and the summary closes with status `completed`. -/
theorem c3_witness :
    executeScriptEnv okFirstRun monitorScriptExample.steps (fun _ => []) true 1 true 3
      = some { runs := (List.range 2).map
                 (fun j => runOnce (okFirstRun j)
                   (scriptTasksWith ((fun _ => ([] : List (Str × Str))) 0)
                     monitorScriptExample.steps) 1 true),
               total_runs := 2, successful_runs := 1, failed_runs := 1,
               status := "completed".toList } :=
  c3_first_failure_completed okFirstRun monitorScriptExample.steps (fun _ => []) 1 1 3
    (by decide) (by decide) (by decide)

/-! ## Claim C8 -/

/-- Claim C8, counterexample: the variable dict is empty at call time and
binds `user ↦ alice` from run 1 on; run 0 succeeds and run 1 fails (so
the periodic loop stops after two runs).  The source executor dispatches
the STALE `${user}` instruction in run 1, whereas the spec-modelled
per-run re-substitution (`executeScriptPerRun`) dispatches the `alice`
instruction — so substitution is NOT re-applied per run just before
dispatch. -/
theorem c8_counterexample :
    ((executeScriptEnv okFirstRun typeUserSteps varsLater true 1 true 3).map
        (fun res => res.runs.map (fun r => r.results.map TaskResult.task))
      = some [[("Type '${user}' into element matching selector: #user".toList)],
              [("Type '${user}' into element matching selector: #user".toList)]])
    ∧ ((executeScriptPerRun okFirstRun typeUserSteps varsLater true 1 true 3).map
        (fun res => res.runs.map (fun r => r.results.map TaskResult.task))
      = some [[("Type '${user}' into element matching selector: #user".toList)],
              [("Type 'alice' into element matching selector: #user".toList)]])
    ∧ scriptTasksWith (varsLater 1) typeUserSteps
        = [("Type 'alice' into element matching selector: #user".toList)]
    ∧ ("Type '${user}' into element matching selector: #user".toList)
        ≠ ("Type 'alice' into element matching selector: #user".toList) := by
  decide

/-- Claim C8 as amended: the substitution pass runs ONCE, inside the
single `script_to_tasks` call at line 95, before the first run; every
run of the loop (periodic or not) replays exactly the instructions
translated with the call-time variables (`varsAt 0`), no matter how the
variables change afterwards. -/
theorem c8_translate_once (ok : Nat → Nat → Nat → Bool) (steps : List ScriptStep)
    (varsAt : Nat → List (Str × Str)) (periodic : Bool) (mr : Nat) (so : Bool)
    (fuel : Nat) (res : ExecSummary)
    (h : executeScriptEnv ok steps varsAt periodic mr so fuel = some res) :
    ∀ n, n < res.runs.length →
      res.runs[n]? = some (runOnce (ok n) (scriptTasksWith (varsAt 0) steps) mr so) := by
  intro n hn
  unfold executeScriptEnv at h
  by_cases hp : periodic = true
  · rw [if_pos hp] at h
    obtain ⟨a, ha, hres⟩ := Option.map_eq_some'.mp h
    obtain ⟨m, _, hruns⟩ := periodicLoop_runs_shape ok _ mr so fuel 0 ⟨[], 0, 0, 0⟩ a ha
    have hr : res.runs
        = (List.range m).map (fun j => runOnce (ok j) (scriptTasksWith (varsAt 0) steps) mr so) := by
      rw [← hres] at hn ⊢
      simpa using hruns
    rw [hr] at hn ⊢
    rw [List.getElem?_map]
    rw [List.getElem?_range (by simpa using hn)]
    rfl
  · rw [if_neg hp] at h
    cases h
    cases n with
    | zero => rfl
    | succ n => simp at hn

/-- Witness for `c8_translate_once`: run 1 of the concrete stale-variable
execution replays the instructions translated at call time. -/
theorem c8_witness :
    laterRunSummary.runs[1]?
      = some (runOnce (okFirstRun 1) (scriptTasksWith (varsLater 0) typeUserSteps) 1 true) :=
  c8_translate_once okFirstRun typeUserSteps varsLater true 1 true 3 laterRunSummary
    (by decide) 1 (by decide)

/-! ## Single-run lemmas -/

theorem preEntries_length (ok : Nat → Nat → Bool) (mr : Nat) :
    ∀ (pre : List Str) (i : Nat), (preEntries ok mr i pre).length = pre.length := by
  intro pre
  induction pre with
  | nil => intro i; rfl
  | cons t rest ih => intro i; simp [preEntries, ih]

theorem attemptsOf_fst (i k : Nat) : ∀ d ∈ attemptsOf i k, d.1 = i := by
  intro d hd
  simp only [attemptsOf, List.mem_map] at hd
  obtain ⟨a, _, rfl⟩ := hd
  rfl

theorem preTrace_mem (ok : Nat → Nat → Bool) (mr : Nat) :
    ∀ (pre : List Str) (i : Nat) (d : Nat × Nat),
      d ∈ preTrace ok mr i pre → i ≤ d.1 ∧ d.1 < i + pre.length := by
  intro pre
  induction pre with
  | nil => intro i d hd; simp [preTrace] at hd
  | cons t rest ih =>
    intro i d hd
    simp only [preTrace, List.mem_append] at hd
    rcases hd with hd | hd
    · have he := attemptsOf_fst _ _ d hd
      simp only [List.length_cons]
      omega
    · have := ih (i + 1) d hd
      simp only [List.length_cons]
      omega

theorem firstOk_none (ok1 : Nat → Bool) (mr : Nat) (h : ∀ a, a < mr → ok1 a = false) :
    firstOk ok1 mr = none := by
  rw [firstOk, List.find?_eq_none]
  intro x hx
  simp [h x (List.mem_range.mp hx)]

theorem length_take_of_getElem? {α : Type} (l : List α) (n : Nat) (a : α)
    (h : l[n]? = some a) : (l.take n).length = n := by
  have hn : n < l.length := by
    rcases Nat.lt_or_ge n l.length with h' | h'
    · exact h'
    · rw [List.getElem?_eq_none h'] at h
      cases h
  simp only [List.length_take]
  omega

theorem runOnceAux_skip_successes (ok : Nat → Nat → Bool) (mr : Nat) (so : Bool) (hmr : mr ≠ 0) :
    ∀ (pre rest : List Str) (i : Nat) (rs : Bool) (acc : List TaskResult)
      (tr : List (Nat × Nat)),
      (∀ j, j < pre.length → (firstOk (ok (i + j)) mr).isSome = true) →
      runOnceAux ok mr so i (pre ++ rest) rs acc tr
        = runOnceAux ok mr so (i + pre.length) rest rs
            (acc ++ preEntries ok mr i pre) (tr ++ preTrace ok mr i pre) := by
  intro pre
  induction pre with
  | nil =>
    intro rest i rs acc tr _
    simp [preEntries, preTrace]
  | cons t pre ih =>
    intro rest i rs acc tr h
    have h0 : (firstOk (ok i) mr).isSome = true := by
      simpa using h 0 (by simp)
    obtain ⟨a, ha⟩ := Option.isSome_iff_exists.mp h0
    rw [List.cons_append]
    rw [show runOnceAux ok mr so i (t :: (pre ++ rest)) rs acc tr
          = runOnceAux ok mr so (i + 1) (pre ++ rest) rs
              (acc ++ [⟨t, true, a + 1⟩]) (tr ++ attemptsOf i (a + 1)) from by
      simp only [runOnceAux, if_neg hmr, ha]]
    rw [ih rest (i + 1) rs _ _ (fun j hj => by
      have e : i + 1 + j = i + (j + 1) := by omega
      rw [e]
      exact h (j + 1) (by simpa using Nat.succ_lt_succ hj))]
    simp only [preEntries, preTrace, ha, Option.getD_some, List.length_cons,
      List.append_assoc, List.singleton_append, List.cons_append, List.nil_append]
    have e2 : i + (pre.length + 1) = i + 1 + pre.length := by omega
    rw [e2]

theorem runOnceAux_extends (ok : Nat → Nat → Bool) (mr : Nat) (so : Bool) :
    ∀ (l : List Str) (i : Nat) (rs : Bool) (acc : List TaskResult)
      (tr : List (Nat × Nat)),
      ∃ res ds,
        (runOnceAux ok mr so i l rs acc tr).results = acc ++ res
        ∧ (runOnceAux ok mr so i l rs acc tr).dispatches = tr ++ ds
        ∧ ∀ d ∈ ds, i ≤ d.1 := by
  intro l
  induction l with
  | nil =>
    intro i rs acc tr
    exact ⟨[], [], by simp [runOnceAux], by simp [runOnceAux], by simp⟩
  | cons t rest ih =>
    intro i rs acc tr
    by_cases hmr : mr = 0
    · simp only [runOnceAux, if_pos hmr]
      obtain ⟨res, ds, h1, h2, h3⟩ := ih (i + 1) rs acc tr
      exact ⟨res, ds, h1, h2, fun d hd => le_trans (Nat.le_succ i) (h3 d hd)⟩
    · simp only [runOnceAux, if_neg hmr]
      cases hf : firstOk (ok i) mr with
      | some a =>
        obtain ⟨res, ds, h1, h2, h3⟩ :=
          ih (i + 1) rs (acc ++ [⟨t, true, a + 1⟩]) (tr ++ attemptsOf i (a + 1))
        refine ⟨⟨t, true, a + 1⟩ :: res, attemptsOf i (a + 1) ++ ds, ?_, ?_, ?_⟩
        · rw [h1]; simp
        · rw [h2]; simp
        · intro d hd
          rcases List.mem_append.mp hd with hd | hd
          · exact le_of_eq (attemptsOf_fst _ _ d hd).symm
          · exact le_trans (Nat.le_succ i) (h3 d hd)
      | none =>
        by_cases hso : so = true
        · rw [if_pos hso]
          refine ⟨[⟨t, false, mr⟩], attemptsOf i mr, by simp, by simp, ?_⟩
          intro d hd
          exact le_of_eq (attemptsOf_fst _ _ d hd).symm
        · rw [if_neg hso]
          obtain ⟨res, ds, h1, h2, h3⟩ :=
            ih (i + 1) false (acc ++ [⟨t, false, mr⟩]) (tr ++ attemptsOf i mr)
          refine ⟨⟨t, false, mr⟩ :: res, attemptsOf i mr ++ ds, ?_, ?_, ?_⟩
          · rw [h1]; simp
          · rw [h2]; simp
          · intro d hd
            rcases List.mem_append.mp hd with hd | hd
            · exact le_of_eq (attemptsOf_fst _ _ d hd).symm
            · exact le_trans (Nat.le_succ i) (h3 d hd)

/-- Shape of `run_once` at the first action whose every attempt fails,
all earlier actions having succeeded: the recorded results are the
successes of the prefix plus the failure entry `{t, False, mr}`, the
dispatch trace ends with the `mr` attempts at position `i`, and under
`stop_on_error` the run returns right there with `success = False`. -/
theorem runOnce_at_failing (ok : Nat → Nat → Bool) (tasks : List Str) (mr : Nat) (so : Bool)
    (i : Nat) (t : Str) (hmr : mr ≠ 0) (ht : tasks[i]? = some t)
    (hfail : ∀ a, a < mr → ok i a = false)
    (hreach : ∀ j, j < i → (firstOk (ok j) mr).isSome = true) :
    runOnce ok tasks mr so
      = if so then
          { success := false
            results := preEntries ok mr 0 (tasks.take i) ++ [⟨t, false, mr⟩]
            dispatches := preTrace ok mr 0 (tasks.take i) ++ attemptsOf i mr }
        else
          runOnceAux ok mr so (i + 1) (tasks.drop (i + 1)) false
            (preEntries ok mr 0 (tasks.take i) ++ [⟨t, false, mr⟩])
            (preTrace ok mr 0 (tasks.take i) ++ attemptsOf i mr) := by
  have hi : i < tasks.length := by
    rcases Nat.lt_or_ge i tasks.length with h' | h'
    · exact h'
    · rw [List.getElem?_eq_none h'] at ht
      cases ht
  have htake : (tasks.take i).length = i := length_take_of_getElem? tasks i t ht
  have hdecomp : tasks = tasks.take i ++ t :: tasks.drop (i + 1) := by
    conv_lhs => rw [← List.take_append_drop i tasks]
    congr 1
    rw [List.drop_eq_getElem_cons hi]
    congr 1
    have h2 := ht
    rw [List.getElem?_eq_getElem hi] at h2
    exact Option.some.inj h2
  have hnone : firstOk (ok i) mr = none := firstOk_none _ _ hfail
  rw [runOnce]
  conv_lhs => rw [hdecomp]
  rw [runOnceAux_skip_successes ok mr so hmr (tasks.take i) _ 0 true [] []
        (fun j hj => by
          rw [htake] at hj
          simpa using hreach j hj)]
  rw [htake]
  simp only [Nat.zero_add, List.nil_append]
  simp only [runOnceAux, if_neg hmr, hnone]

/-! ## Claim C4 -/

/-- Claim C4: an action at position `i` whose every dispatch fails is
dispatched exactly `max_retries` times (attempts `0 … mr-1`, and no
other dispatch for that position occurs anywhere in the run), and its
recorded result entry — at index `i`, every earlier action having
recorded one success entry — is `{success: False, attempt: mr}`.
Hypotheses: at least one attempt is allowed (`range(0)` would skip the
action entirely), and the action is reached, i.e. every earlier action
eventually succeeds. -/
theorem c4_retry_exhaustion (ok : Nat → Nat → Bool) (tasks : List Str) (mr : Nat)
    (so : Bool) (i : Nat) (t : Str)
    (hmr : 1 ≤ mr)
    (ht : tasks[i]? = some t)
    (hfail : ∀ a, a < mr → ok i a = false)
    (hreach : ∀ j, j < i → (firstOk (ok j) mr).isSome = true) :
    (runOnce ok tasks mr so).dispatches.filter (fun d => d.1 == i)
        = (List.range mr).map (fun a => (i, a))
    ∧ ((runOnce ok tasks mr so).dispatches.filter (fun d => d.1 == i)).length = mr
    ∧ (runOnce ok tasks mr so).results[i]? = some ⟨t, false, mr⟩ := by
  have hmr' : mr ≠ 0 := by omega
  have htake : (tasks.take i).length = i := length_take_of_getElem? tasks i t ht
  have key : ∃ res' ds',
      (runOnce ok tasks mr so).results
        = (preEntries ok mr 0 (tasks.take i) ++ [⟨t, false, mr⟩]) ++ res'
      ∧ (runOnce ok tasks mr so).dispatches
        = (preTrace ok mr 0 (tasks.take i) ++ attemptsOf i mr) ++ ds'
      ∧ ∀ d ∈ ds', i + 1 ≤ d.1 := by
    rw [runOnce_at_failing ok tasks mr so i t hmr' ht hfail hreach]
    by_cases hso : so = true
    · rw [if_pos hso]
      exact ⟨[], [], by simp, by simp, by simp⟩
    · rw [if_neg hso]
      exact runOnceAux_extends ok mr so (tasks.drop (i + 1)) (i + 1) false _ _
  obtain ⟨res', ds', hres, hdis, hds⟩ := key
  have hPE : (preEntries ok mr 0 (tasks.take i)).length = i := by
    rw [preEntries_length]
    exact htake
  have hfilter : (runOnce ok tasks mr so).dispatches.filter (fun d => d.1 == i)
      = attemptsOf i mr := by
    rw [hdis, List.filter_append, List.filter_append]
    have e1 : (preTrace ok mr 0 (tasks.take i)).filter (fun d => d.1 == i) = [] := by
      rw [List.filter_eq_nil_iff]
      intro d hd
      have h2 := (preTrace_mem ok mr (tasks.take i) 0 d hd).2
      simp only [beq_iff_eq]
      omega
    have e2 : (attemptsOf i mr).filter (fun d => d.1 == i) = attemptsOf i mr := by
      rw [List.filter_eq_self]
      intro d hd
      simp only [beq_iff_eq]
      exact attemptsOf_fst i mr d hd
    have e3 : ds'.filter (fun d => d.1 == i) = [] := by
      rw [List.filter_eq_nil_iff]
      intro d hd
      have := hds d hd
      simp only [beq_iff_eq]
      omega
    rw [e1, e2, e3]
    simp
  refine ⟨hfilter, ?_, ?_⟩
  · rw [hfilter]
    simp [attemptsOf]
  · rw [hres]
    rw [List.getElem?_append_left (by simp [hPE])]
    rw [List.getElem?_append_right (le_of_eq hPE)]
    simp [hPE]

/-- Witness for `c4_retry_exhaustion`: the second of two instructions
always fails; with `max_retries = 3` it is dispatched exactly three
times and recorded as `{success: False, attempt: 3}`. -/
theorem c4_witness :
    (runOnce okTwo tasksTwo 3 false).dispatches.filter (fun d => d.1 == 1)
        = (List.range 3).map (fun a => (1, a))
    ∧ ((runOnce okTwo tasksTwo 3 false).dispatches.filter (fun d => d.1 == 1)).length = 3
    ∧ (runOnce okTwo tasksTwo 3 false).results[1]? = some ⟨"beta".toList, false, 3⟩ :=
  c4_retry_exhaustion okTwo tasksTwo 3 false 1 ("beta".toList)
    (by decide) (by decide) (by decide) (by decide)

/-! ## Claim C5 -/

/-- Claim C5: with `stop_on_error = true`, when the action at position
`k` exhausts its retries (every earlier action having succeeded),
`run_once` returns immediately: its `success` flag is false, no dispatch
for a position beyond `k` is ever made, and exactly `k + 1` result
entries are recorded. -/
theorem c5_fail_fast (ok : Nat → Nat → Bool) (tasks : List Str) (mr : Nat)
    (k : Nat) (t : Str)
    (hmr : 1 ≤ mr)
    (ht : tasks[k]? = some t)
    (hfail : ∀ a, a < mr → ok k a = false)
    (hpre : ∀ j, j < k → (firstOk (ok j) mr).isSome = true) :
    (runOnce ok tasks mr true).success = false
    ∧ (∀ d ∈ (runOnce ok tasks mr true).dispatches, d.1 ≤ k)
    ∧ (runOnce ok tasks mr true).results.length = k + 1 := by
  have hmr' : mr ≠ 0 := by omega
  have htake : (tasks.take k).length = k := length_take_of_getElem? tasks k t ht
  rw [runOnce_at_failing ok tasks mr true k t hmr' ht hfail hpre, if_pos rfl]
  refine ⟨rfl, ?_, ?_⟩
  · intro d hd
    simp only [List.mem_append] at hd
    rcases hd with hd | hd
    · have h2 := (preTrace_mem ok mr (tasks.take k) 0 d hd).2
      omega
    · have := attemptsOf_fst k mr d hd
      omega
  · simp only [List.length_append, List.length_cons, List.length_nil, preEntries_length]
    omega

/-- Witness for `c5_fail_fast` on a one-position-failing two-instruction
run. -/
theorem c5_witness :
    (runOnce okTwo tasksTwo 3 true).success = false
    ∧ (∀ d ∈ (runOnce okTwo tasksTwo 3 true).dispatches, d.1 ≤ 1)
    ∧ (runOnce okTwo tasksTwo 3 true).results.length = 1 + 1 :=
  c5_fail_fast okTwo tasksTwo 3 1 ("beta".toList)
    (by decide) (by decide) (by decide) (by decide)

end BrowserApi
